import Mathlib

/-!
Verification of the hybrid search aggregation engine of the `heap` repository
(`src/services/search_service.rs`).

The Rust code is shallowly embedded: `f32` scores become rationals (`ℚ`),
`anyhow::Result` becomes `Except String`, and the two storage traits
(`SearchStorage`, the semantic `AiService`) are abstracted as a record of the
results their calls would produce during one `search` invocation.  The Rust
`HashMap` used for `metadata_map` in `SearchService::merge_results` has an
unspecified iteration order; that order enters the model as an explicit entry
list (one pair per key, in iteration order).
-/

namespace HeapSearch

/-- `EmailId` (a string newtype from `crate::domain`, not part of the
subsystem's sources; modelled as a plain string). -/
abbrev EmailId := String

/-- `ThreadId` (a string newtype from `crate::domain`). -/
abbrev ThreadId := String

/-- `f32` relevance scores and weights are modelled as rationals. -/
abbrev Score := ℚ

/-- `SearchMode`: search execution mode. -/
inductive SearchMode where
  | FullText
  | Semantic
  | Hybrid
deriving DecidableEq

/-- `SearchFolder`: folder to filter search results. -/
inductive SearchFolder where
  | All
  | Inbox
  | Sent
  | Drafts
  | Archive
  | Trash
  | Label (name : String)
deriving DecidableEq

/-- `DateRange`: date range filter (timestamps modelled as integers). -/
structure DateRange where
  start : Int
  «end» : Int
deriving DecidableEq

/-- `SearchQuery`: search query with filters and options. -/
structure SearchQuery where
  text : String
  account_ids : List String
  folder : Option SearchFolder
  date_range : Option DateRange
  «from» : Option String
  «to» : Option String
  has_attachment : Option Bool
  is_unread : Option Bool
  is_starred : Option Bool
  limit : Nat
  offset : Nat
  mode : SearchMode
deriving DecidableEq

/-- `Default::default()` for `SearchQuery` (derived `Default` in Rust:
empty text, no filters, zero limit and offset, `SearchMode::Hybrid`). -/
def SearchQuery.defaultQuery : SearchQuery :=
  { text := ""
    account_ids := []
    folder := none
    date_range := none
    «from» := none
    «to» := none
    has_attachment := none
    is_unread := none
    is_starred := none
    limit := 0
    offset := 0
    mode := SearchMode.Hybrid }

/-- `SearchQuery::new`: a query with the given text and `limit: 50`. -/
def SearchQuery.new (text : String) : SearchQuery :=
  { SearchQuery.defaultQuery with text := text, limit := 50 }

/-- `SearchQuery::with_limit`. -/
def SearchQuery.with_limit (q : SearchQuery) (limit : Nat) : SearchQuery :=
  { q with limit := limit }

/-- `SearchQuery::with_offset`. -/
def SearchQuery.with_offset (q : SearchQuery) (offset : Nat) : SearchQuery :=
  { q with offset := offset }

/-- `SearchQuery::with_mode`. -/
def SearchQuery.with_mode (q : SearchQuery) (mode : SearchMode) : SearchQuery :=
  { q with mode := mode }

/-- `SearchSource`: source of a search result. -/
inductive SearchSource where
  | FullText
  | Semantic
  | Both
deriving DecidableEq

/-- `FtsHit`: raw FTS hit from the database. -/
structure FtsHit where
  email_id : EmailId
  thread_id : ThreadId
  rank : Score
  snippet : String
deriving DecidableEq

/-- `SearchResult` as consumed by the search service (`crate::services`, a
semantic hit).  Modelled from the spec: the spec's `SemanticHit` carries the
item identity, a relevance score normalized to `[0,1]`, and highlight spans;
these are exactly the fields (`email_id`, `relevance`, `highlights`) the
search-service source reads from it. -/
structure SearchResult where
  email_id : EmailId
  relevance : Score
  highlights : List String
deriving DecidableEq

/-- `EmailMetadata`: email metadata for search results. -/
structure EmailMetadata where
  email_id : EmailId
  thread_id : ThreadId
  subject : Option String
  snippet : String
  «from» : String
  date : Int
  is_read : Bool
deriving DecidableEq

/-- `SearchHit`: combined search result with source tracking. -/
structure SearchHit where
  email_id : EmailId
  thread_id : ThreadId
  subject : Option String
  snippet : String
  «from» : String
  date : Int
  is_read : Bool
  score : Score
  source : SearchSource
  highlights : List String
deriving DecidableEq

/-- `SearchResults`: one search result page.  Wall-clock timing (`took_ms`)
is not modelled; the field is carried along as `0`. -/
structure SearchResults where
  hits : List SearchHit
  total : Nat
  query : String
  took_ms : Nat
  used_semantic : Bool
deriving DecidableEq

/-- `SearchSettings`: search service settings. -/
structure SearchSettings where
  semantic_enabled : Bool
  fts_weight : Score
  semantic_weight : Score
  min_score : Score
  default_limit : Nat
deriving DecidableEq

/-- `SearchSettings::default()`. -/
def SearchSettings.defaultSettings : SearchSettings :=
  { semantic_enabled := true
    fts_weight := 6 / 10
    semantic_weight := 4 / 10
    min_score := 3 / 10
    default_limit := 50 }

/-- The outcomes of the backend calls available to one `search` invocation:
what `SearchStorage::fts_search`, `AiService::semantic_search` and
`SearchStorage::get_email_metadata` would return.  The metadata result is
given directly as the entry list of the `metadata_map` that
`merge_results` builds from it (one pair per key, in the `HashMap`'s
iteration order). -/
structure Backends where
  fts_result : Except String (List FtsHit)
  semantic_result : Except String (List SearchResult)
  metadata_result : Except String (List (EmailId × EmailMetadata))

/-- Rust `str::trim` (leading and trailing whitespace removed), modelled on
the character list so that it evaluates. -/
def rustTrim (s : String) : String :=
  String.mk (((s.data.dropWhile Char.isWhitespace).reverse.dropWhile
    Char.isWhitespace).reverse)

/-- `SearchService::track_query`: skips texts whose trim is empty, removes an
existing occurrence of the raw text, inserts the raw text at the front and
truncates to the most recent 100 entries. -/
def track_query (query : String) (recent : List String) : List String :=
  if (rustTrim query).isEmpty then recent
  else (query :: recent.filter (fun q => q ≠ query)).take 100

/-- `SearchService::recent_queries`. -/
def recent_queries (recent : List String) (limit : Nat) : List String :=
  recent.take limit

/-- A sequence of `track_query` calls, oldest first (the query-history state
after a sequence of `search` calls). -/
def run_queries (qs : List String) (recent : List String) : List String :=
  qs.foldl (fun r t => track_query t r) recent

/-- Building a `HashMap` by inserting every pair in order, then `get`:
the last inserted value for a key wins. -/
def insertAllLookup (ps : List (EmailId × Score)) (id : EmailId) : Option Score :=
  ps.foldl (fun acc p => if p.1 = id then some p.2 else acc) none

/-- `fts_map.get(email_id).copied().unwrap_or(0.0)` where `fts_map` maps each
hit's `email_id` to its `rank` (later list entries overwrite earlier ones). -/
def fts_score_of (fts_hits : List FtsHit) (id : EmailId) : Score :=
  (insertAllLookup (fts_hits.map (fun h => (h.email_id, h.rank))) id).getD 0

/-- `semantic_map.get(email_id).copied().unwrap_or(0.0)` where `semantic_map`
maps each semantic hit's `email_id` to its `relevance`. -/
def semantic_score_of (semantic_hits : List SearchResult) (id : EmailId) : Score :=
  (insertAllLookup (semantic_hits.map (fun h => (h.email_id, h.relevance))) id).getD 0

/-- `let combined_score = (fts_score * settings.fts_weight) +
(semantic_score * settings.semantic_weight)`. -/
def combined_score_of (fts_hits : List FtsHit) (semantic_hits : List SearchResult)
    (settings : SearchSettings) (id : EmailId) : Score :=
  fts_score_of fts_hits id * settings.fts_weight
    + semantic_score_of semantic_hits id * settings.semantic_weight

/-- The `match (fts_score > 0.0, semantic_score > 0.0)` provenance dispatch in
`merge_results`; `none` models the `(false, false) => continue` arm. -/
def source_of (fts_hits : List FtsHit) (semantic_hits : List SearchResult)
    (id : EmailId) : Option SearchSource :=
  match decide (fts_score_of fts_hits id > 0),
      decide (semantic_score_of semantic_hits id > 0) with
  | true, true => some SearchSource.Both
  | true, false => some SearchSource.FullText
  | false, true => some SearchSource.Semantic
  | false, false => none

/-- The `SearchHit` that `merge_results` pushes for one metadata entry:
snippet from the first matching FTS hit if any (else the metadata snippet),
highlights from the first matching semantic hit if any (else empty). -/
def make_hit (fts_hits : List FtsHit) (semantic_hits : List SearchResult)
    (settings : SearchSettings) (src : SearchSource)
    (e : EmailId × EmailMetadata) : SearchHit :=
  { email_id := e.1
    thread_id := e.2.thread_id
    subject := e.2.subject
    snippet := (((fts_hits.find? (fun h => h.email_id == e.1)).map
      (fun h => h.snippet)).getD e.2.snippet)
    «from» := e.2.«from»
    date := e.2.date
    is_read := e.2.is_read
    score := combined_score_of fts_hits semantic_hits settings e.1
    source := src
    highlights := (((semantic_hits.find? (fun h => h.email_id == e.1)).map
      (fun h => h.highlights)).getD []) }

/-- One iteration of the `for (email_id, meta) in &metadata_map` loop of
`SearchService::merge_results`; `none` models `continue` (provenance
`(false, false)`, or a combined score strictly below `min_score`). -/
def merge_entry (fts_hits : List FtsHit) (semantic_hits : List SearchResult)
    (settings : SearchSettings) (e : EmailId × EmailMetadata) : Option SearchHit :=
  match source_of fts_hits semantic_hits e.1 with
  | none => none
  | some src =>
    if combined_score_of fts_hits semantic_hits settings e.1 < settings.min_score
    then none
    else some (make_hit fts_hits semantic_hits settings src e)

/-- `SearchService::merge_results` given the entry list of `metadata_map`
(one pair per key, in the `HashMap`'s iteration order): build a scored hit per
surviving entry, then sort by score descending with Rust's stable `sort_by`
(ties keep the pre-sort order), the comparator treating incomparable scores as
equal. -/
def merge_results (fts_hits : List FtsHit) (semantic_hits : List SearchResult)
    (settings : SearchSettings)
    (metadata_entries : List (EmailId × EmailMetadata)) : List SearchHit :=
  (metadata_entries.filterMap (merge_entry fts_hits semantic_hits settings)).mergeSort
    (fun a b => decide (b.score ≤ a.score))

/-- `SearchService::semantic_search`: returns `Ok(vec![])` when no AI service
is configured, otherwise the semantic backend's result. -/
def semantic_search (ai_configured : Bool) (b : Backends) :
    Except String (List SearchResult) :=
  if ai_configured then b.semantic_result else Except.ok []

/-- The `match query.mode` dispatch of `SearchService::search`, producing the
`(fts_hits, semantic_hits)` pair.  In `Hybrid` mode with semantic enabled and
configured, both calls are joined; the lexical result is propagated with `?`
while the semantic result goes through `unwrap_or_default()`. -/
def dispatch_hits (settings : SearchSettings) (ai_configured : Bool)
    (b : Backends) (mode : SearchMode) :
    Except String (List FtsHit × List SearchResult) :=
  match mode with
  | SearchMode.FullText => b.fts_result.map (fun fts => (fts, []))
  | SearchMode.Semantic =>
    if settings.semantic_enabled && ai_configured then
      (semantic_search ai_configured b).map (fun sems => ([], sems))
    else
      b.fts_result.map (fun fts => (fts, []))
  | SearchMode.Hybrid =>
    if settings.semantic_enabled && ai_configured then
      b.fts_result.map
        (fun fts => (fts, (semantic_search ai_configured b).toOption.getD []))
    else
      b.fts_result.map (fun fts => (fts, []))

/-- The `if email_ids.is_empty() { return Ok(vec![]); }` shortcut followed by
the metadata fetch and the merge: the union of identities is empty exactly
when both hit lists are empty. -/
def merge_step (settings : SearchSettings) (b : Backends)
    (fts_hits : List FtsHit) (semantic_hits : List SearchResult) :
    Except String (List SearchHit) :=
  if fts_hits.isEmpty && semantic_hits.isEmpty then Except.ok []
  else b.metadata_result.map
    (fun entries => merge_results fts_hits semantic_hits settings entries)

/-- `SearchService::search`.  The first component is the query-history state
after the call (the `track_query` call happens before any backend is
consulted); the second is the returned `Result`. -/
def search (settings : SearchSettings) (ai_configured : Bool) (b : Backends)
    (recent : List String) (query : SearchQuery) :
    List String × Except String SearchResults :=
  let recent' := track_query query.text recent
  let res : Except String SearchResults := do
    let (fts_hits, semantic_hits) ← dispatch_hits settings ai_configured b query.mode
    let used_semantic := !semantic_hits.isEmpty
    let merged ← merge_step settings b fts_hits semantic_hits
    let total := merged.length
    let hits := (merged.drop query.offset).take query.limit
    pure { hits := hits
           total := total
           query := query.text
           took_ms := 0
           used_semantic := used_semantic }
  (recent', res)

/-- The identities of a hit list, in order. -/
def hitIds (l : List SearchHit) : List EmailId :=
  l.map (fun h => h.email_id)

/-- The hit page of a `search` call (empty when the call fails). -/
def page_hits (settings : SearchSettings) (ai_configured : Bool) (b : Backends)
    (recent : List String) (query : SearchQuery) : List SearchHit :=
  match (search settings ai_configured b recent query).2 with
  | Except.ok r => r.hits
  | Except.error _ => []


/-! ### Concrete instances used by witnesses and counterexamples -/

/-- A metadata record for email `e1`. -/
def m1 : EmailMetadata :=
  { email_id := "e1", thread_id := "t1", subject := none, snippet := "m1",
    «from» := "a", date := 0, is_read := false }

/-- A metadata record for email `e2`. -/
def m2 : EmailMetadata :=
  { email_id := "e2", thread_id := "t2", subject := none, snippet := "m2",
    «from» := "b", date := 0, is_read := false }

/-- A metadata record for email `e9`. -/
def m9 : EmailMetadata :=
  { email_id := "e9", thread_id := "t9", subject := none, snippet := "m9",
    «from» := "c", date := 0, is_read := false }

/-- Settings with unit weights and a zero threshold. -/
def set_unit : SearchSettings :=
  { semantic_enabled := true, fts_weight := 1, semantic_weight := 1,
    min_score := 0, default_limit := 50 }

/-- Settings with unit weights and threshold 1. -/
def set_min1 : SearchSettings :=
  { semantic_enabled := true, fts_weight := 1, semantic_weight := 1,
    min_score := 1, default_limit := 50 }

/-- Settings with semantic search disabled. -/
def set_off : SearchSettings :=
  { semantic_enabled := false, fts_weight := 1, semantic_weight := 1,
    min_score := 0, default_limit := 50 }

/-- Backends whose calls all succeed with empty results. -/
def b_empty : Backends :=
  { fts_result := Except.ok [], semantic_result := Except.ok [],
    metadata_result := Except.ok [] }

/-- Backends whose semantic call fails while the lexical call succeeds. -/
def b_semfail : Backends :=
  { fts_result := Except.ok [], semantic_result := Except.error ("boom"),
    metadata_result := Except.ok [] }

/-- A second failing-semantic backend instance. -/
def b_semfail2 : Backends :=
  { fts_result := Except.ok [], semantic_result := Except.error ("down"),
    metadata_result := Except.ok [] }

/-- A single lexical hit for `e1` whose FTS rank is exactly `0.0`. -/
def fts_z : List FtsHit :=
  [{ email_id := "e1", thread_id := "t1", rank := 0, snippet := "s" }]

/-- A single lexical hit for `e1` with positive rank. -/
def fts_1 : List FtsHit :=
  [{ email_id := "e1", thread_id := "t1", rank := 1, snippet := "s1" }]

/-- Two lexical hits with equal ranks (a score tie). -/
def fts_2 : List FtsHit :=
  [{ email_id := "e1", thread_id := "t1", rank := 1, snippet := "s1" },
   { email_id := "e2", thread_id := "t2", rank := 1, snippet := "s2" }]

/-- A lexical hit list naming the same email twice. -/
def fts_dup : List FtsHit :=
  [{ email_id := "e1", thread_id := "t1", rank := 1, snippet := "s1" },
   { email_id := "e1", thread_id := "t1", rank := 2, snippet := "s2" }]

/-- A semantic hit list naming the same email twice. -/
def sem_dup : List SearchResult :=
  [{ email_id := "e1", relevance := 1, highlights := [] },
   { email_id := "e1", relevance := 1 / 2, highlights := [] }]

/-- A single semantic hit for `e9` whose relevance is exactly `0.0`. -/
def sem_z : List SearchResult := [{ email_id := "e9", relevance := 0, highlights := [] }]

/-- A one-entry metadata map for `e9`. -/
def meta9 : List (EmailId × EmailMetadata) := [("e9", m9)]

/-- Backends delivering the `e9` semantic hit and its metadata. -/
def b_c3 : Backends :=
  { fts_result := Except.ok [], semantic_result := Except.ok sem_z,
    metadata_result := Except.ok meta9 }

/-- The metadata map over `e1, e2` in one iteration order. -/
def metaA : List (EmailId × EmailMetadata) := [("e1", m1), ("e2", m2)]

/-- The same metadata map in the other iteration order. -/
def metaB : List (EmailId × EmailMetadata) := [("e2", m2), ("e1", m1)]

/-- The empty result page for query text `x`. -/
def r_empty : SearchResults :=
  { hits := [], total := 0, query := "x", took_ms := 0, used_semantic := false }

/-- The empty result page for query text `y`. -/
def r_y : SearchResults :=
  { hits := [], total := 0, query := "y", took_ms := 0, used_semantic := false }

/-- A `Semantic`-mode query. -/
def q_sem_off : SearchQuery := (SearchQuery.new ("z")).with_mode SearchMode.Semantic

/-- An FTS hit with rank 1 for the given email identity. -/
def mkFts (id : EmailId) : FtsHit :=
  { email_id := id, thread_id := "t", rank := 1, snippet := "s" }

/-- A metadata record for the given email identity. -/
def mkMeta (id : EmailId) : EmailMetadata :=
  { email_id := id, thread_id := "t", subject := none, snippet := "m",
    «from» := "f", date := 0, is_read := false }

/-- 51 lexical hits whose ranks all tie at 1, so a 50-item page boundary
falls inside one tie group. -/
def fts51 : List FtsHit :=
  [mkFts ("e00"),
   mkFts ("e01"),
   mkFts ("e02"),
   mkFts ("e03"),
   mkFts ("e04"),
   mkFts ("e05"),
   mkFts ("e06"),
   mkFts ("e07"),
   mkFts ("e08"),
   mkFts ("e09"),
   mkFts ("e10"),
   mkFts ("e11"),
   mkFts ("e12"),
   mkFts ("e13"),
   mkFts ("e14"),
   mkFts ("e15"),
   mkFts ("e16"),
   mkFts ("e17"),
   mkFts ("e18"),
   mkFts ("e19"),
   mkFts ("e20"),
   mkFts ("e21"),
   mkFts ("e22"),
   mkFts ("e23"),
   mkFts ("e24"),
   mkFts ("e25"),
   mkFts ("e26"),
   mkFts ("e27"),
   mkFts ("e28"),
   mkFts ("e29"),
   mkFts ("e30"),
   mkFts ("e31"),
   mkFts ("e32"),
   mkFts ("e33"),
   mkFts ("e34"),
   mkFts ("e35"),
   mkFts ("e36"),
   mkFts ("e37"),
   mkFts ("e38"),
   mkFts ("e39"),
   mkFts ("e40"),
   mkFts ("e41"),
   mkFts ("e42"),
   mkFts ("e43"),
   mkFts ("e44"),
   mkFts ("e45"),
   mkFts ("e46"),
   mkFts ("e47"),
   mkFts ("e48"),
   mkFts ("e49"),
   mkFts ("e50")]

/-- The metadata map over the 51 tied identities, in one iteration order. -/
def meta51A : List (EmailId × EmailMetadata) :=
  [("e00", mkMeta ("e00")),
   ("e01", mkMeta ("e01")),
   ("e02", mkMeta ("e02")),
   ("e03", mkMeta ("e03")),
   ("e04", mkMeta ("e04")),
   ("e05", mkMeta ("e05")),
   ("e06", mkMeta ("e06")),
   ("e07", mkMeta ("e07")),
   ("e08", mkMeta ("e08")),
   ("e09", mkMeta ("e09")),
   ("e10", mkMeta ("e10")),
   ("e11", mkMeta ("e11")),
   ("e12", mkMeta ("e12")),
   ("e13", mkMeta ("e13")),
   ("e14", mkMeta ("e14")),
   ("e15", mkMeta ("e15")),
   ("e16", mkMeta ("e16")),
   ("e17", mkMeta ("e17")),
   ("e18", mkMeta ("e18")),
   ("e19", mkMeta ("e19")),
   ("e20", mkMeta ("e20")),
   ("e21", mkMeta ("e21")),
   ("e22", mkMeta ("e22")),
   ("e23", mkMeta ("e23")),
   ("e24", mkMeta ("e24")),
   ("e25", mkMeta ("e25")),
   ("e26", mkMeta ("e26")),
   ("e27", mkMeta ("e27")),
   ("e28", mkMeta ("e28")),
   ("e29", mkMeta ("e29")),
   ("e30", mkMeta ("e30")),
   ("e31", mkMeta ("e31")),
   ("e32", mkMeta ("e32")),
   ("e33", mkMeta ("e33")),
   ("e34", mkMeta ("e34")),
   ("e35", mkMeta ("e35")),
   ("e36", mkMeta ("e36")),
   ("e37", mkMeta ("e37")),
   ("e38", mkMeta ("e38")),
   ("e39", mkMeta ("e39")),
   ("e40", mkMeta ("e40")),
   ("e41", mkMeta ("e41")),
   ("e42", mkMeta ("e42")),
   ("e43", mkMeta ("e43")),
   ("e44", mkMeta ("e44")),
   ("e45", mkMeta ("e45")),
   ("e46", mkMeta ("e46")),
   ("e47", mkMeta ("e47")),
   ("e48", mkMeta ("e48")),
   ("e49", mkMeta ("e49")),
   ("e50", mkMeta ("e50"))]

/-- The same metadata map in the reversed iteration order (as a freshly
seeded `HashMap` in a second `search` call may produce). -/
def meta51B : List (EmailId × EmailMetadata) := meta51A.reverse

/-- The backend snapshot seen by the first page call. -/
def bA51 : Backends :=
  { fts_result := Except.ok fts51, semantic_result := Except.ok [],
    metadata_result := Except.ok meta51A }

/-- The backend snapshot seen by the second page call: identical backend
data, only the metadata map's iteration order differs. -/
def bB51 : Backends :=
  { fts_result := Except.ok fts51, semantic_result := Except.ok [],
    metadata_result := Except.ok meta51B }

/-! ### Helper lemmas and claim theorems -/

-- glue lemma: search result in terms of dispatch and merge_step
theorem search_snd_eq {settings : SearchSettings} {ai : Bool} {b : Backends}
    {recent : List String} {q : SearchQuery} {fts : List FtsHit}
    {sems : List SearchResult} {merged : List SearchHit}
    (hd : dispatch_hits settings ai b q.mode = Except.ok (fts, sems))
    (hm : merge_step settings b fts sems = Except.ok merged) :
    (search settings ai b recent q).2 =
      Except.ok { hits := (merged.drop q.offset).take q.limit
                  total := merged.length
                  query := q.text
                  took_ms := 0
                  used_semantic := !sems.isEmpty } := by
  simp [search, hd, hm, Except.bind, Except.map, Bind.bind, Functor.map, Pure.pure, Except.pure]


-- characterization lemmas
theorem source_of_eq_some {fts : List FtsHit} {sems : List SearchResult}
    {id : EmailId} {src : SearchSource} (h : source_of fts sems id = some src) :
    0 < fts_score_of fts id ∨ 0 < semantic_score_of sems id := by
  by_cases hf : 0 < fts_score_of fts id
  · exact Or.inl hf
  · by_cases hs : 0 < semantic_score_of sems id
    · exact Or.inr hs
    · simp [source_of, hf, hs] at h

theorem source_of_isSome {fts : List FtsHit} {sems : List SearchResult} {id : EmailId}
    (h : 0 < fts_score_of fts id ∨ 0 < semantic_score_of sems id) :
    ∃ src, source_of fts sems id = some src := by
  by_cases hf : 0 < fts_score_of fts id
  · by_cases hs : 0 < semantic_score_of sems id
    · exact ⟨SearchSource.Both, by simp [source_of, hf, hs]⟩
    · exact ⟨SearchSource.FullText, by simp [source_of, hf, hs]⟩
  · by_cases hs : 0 < semantic_score_of sems id
    · exact ⟨SearchSource.Semantic, by simp [source_of, hf, hs]⟩
    · rcases h with h | h
      · exact absurd h hf
      · exact absurd h hs

theorem merge_entry_some {fts : List FtsHit} {sems : List SearchResult}
    {settings : SearchSettings} {e : EmailId × EmailMetadata} {h : SearchHit}
    (he : merge_entry fts sems settings e = some h) :
    h.email_id = e.1 ∧ h.score = combined_score_of fts sems settings e.1 ∧
    ¬ combined_score_of fts sems settings e.1 < settings.min_score ∧
    (0 < fts_score_of fts e.1 ∨ 0 < semantic_score_of sems e.1) := by
  unfold merge_entry at he
  cases hsrc : source_of fts sems e.1 with
  | none => rw [hsrc] at he; exact absurd he (by simp)
  | some src =>
    rw [hsrc] at he
    dsimp only at he
    by_cases hlt : combined_score_of fts sems settings e.1 < settings.min_score
    · rw [if_pos hlt] at he; exact absurd he (by simp)
    · rw [if_neg hlt] at he
      have hh : h = make_hit fts sems settings src e := by
        exact (Option.some.injEq _ _ ▸ he).symm
      subst hh
      exact ⟨rfl, rfl, hlt, source_of_eq_some hsrc⟩

theorem merge_entry_isSome {fts : List FtsHit} {sems : List SearchResult}
    {settings : SearchSettings} {e : EmailId × EmailMetadata}
    (hpos : 0 < fts_score_of fts e.1 ∨ 0 < semantic_score_of sems e.1)
    (hthr : ¬ combined_score_of fts sems settings e.1 < settings.min_score) :
    ∃ h, merge_entry fts sems settings e = some h ∧ h.email_id = e.1 := by
  rcases source_of_isSome hpos with ⟨src, hsrc⟩
  exact ⟨make_hit fts sems settings src e, by simp [merge_entry, hsrc, if_neg hthr], rfl⟩

theorem mem_merge_results {fts : List FtsHit} {sems : List SearchResult}
    {settings : SearchSettings} {meta : List (EmailId × EmailMetadata)} {h : SearchHit} :
    h ∈ merge_results fts sems settings meta ↔
    ∃ e ∈ meta, merge_entry fts sems settings e = some h := by
  simp [merge_results, List.mem_mergeSort, List.mem_filterMap]


theorem mem_map_fst_of_mem_filterMap {fts : List FtsHit} {sems : List SearchResult}
    {settings : SearchSettings} {meta : List (EmailId × EmailMetadata)} {h : SearchHit}
    (hm : h ∈ meta.filterMap (merge_entry fts sems settings)) :
    h.email_id ∈ meta.map Prod.fst := by
  rcases List.mem_filterMap.1 hm with ⟨e, he, hee⟩
  rw [(merge_entry_some hee).1]
  exact List.mem_map_of_mem Prod.fst he

theorem nodup_ids_filterMap (fts : List FtsHit) (sems : List SearchResult)
    (settings : SearchSettings) :
    ∀ (meta : List (EmailId × EmailMetadata)), (meta.map Prod.fst).Nodup →
    ((meta.filterMap (merge_entry fts sems settings)).map (fun h => h.email_id)).Nodup
  | [], _ => by simp
  | e :: rest, hnd => by
    rw [List.map_cons, List.nodup_cons] at hnd
    rw [List.filterMap_cons]
    cases hme : merge_entry fts sems settings e with
    | none => exact nodup_ids_filterMap fts sems settings rest hnd.2
    | some h =>
      rw [List.map_cons, List.nodup_cons]
      refine ⟨fun hmem => ?_, nodup_ids_filterMap fts sems settings rest hnd.2⟩
      rcases List.mem_map.1 hmem with ⟨h', hh', heq⟩
      have h1 : h.email_id = e.1 := (merge_entry_some hme).1
      have h2 : h'.email_id ∈ rest.map Prod.fst := mem_map_fst_of_mem_filterMap hh'
      rw [heq, h1] at h2
      exact hnd.1 h2

theorem nodup_hitIds_merge {fts : List FtsHit} {sems : List SearchResult}
    {settings : SearchSettings} {meta : List (EmailId × EmailMetadata)}
    (hnd : (meta.map Prod.fst).Nodup) :
    (hitIds (merge_results fts sems settings meta)).Nodup := by
  have hperm : (merge_results fts sems settings meta).Perm
      (meta.filterMap (merge_entry fts sems settings)) :=
    List.mergeSort_perm _ _
  have := (hperm.map (fun h => h.email_id)).nodup_iff
  rw [hitIds, this]
  exact nodup_ids_filterMap fts sems settings meta hnd

-- pagination lemma
theorem range_bind_take_drop {α : Type} (l : List α) :
    ∀ n : Nat, (List.range n).flatMap (fun k => (l.drop (50 * k)).take 50) = l.take (50 * n)
  | 0 => by simp
  | n + 1 => by
    rw [List.range_succ, List.flatMap_append, range_bind_take_drop l n]
    simp only [List.flatMap_cons, List.flatMap_nil, List.append_nil]
    rw [Nat.mul_succ, List.take_add]


-- track_query invariant lemmas
theorem track_query_nodup {q : String} {h : List String} (hnd : h.Nodup) :
    (track_query q h).Nodup := by
  unfold track_query
  split
  · exact hnd
  · refine List.Nodup.sublist (List.take_sublist _ _) (List.nodup_cons.2 ⟨?_, hnd.filter _⟩)
    intro hmem
    have := (List.mem_filter.1 hmem).2
    simp at this

theorem track_query_length {q : String} {h : List String} (hlen : h.length ≤ 100) :
    (track_query q h).length ≤ 100 := by
  unfold track_query
  split
  · exact hlen
  · exact le_trans (List.length_take_le _ _) (le_refl 100)

theorem run_queries_invariant (qs : List String) :
    ∀ h : List String, h.Nodup → h.length ≤ 100 →
      (run_queries qs h).Nodup ∧ (run_queries qs h).length ≤ 100 := by
  induction qs with
  | nil => intro h hnd hlen; exact ⟨hnd, hlen⟩
  | cons t rest ih =>
    intro h hnd hlen
    exact ih _ (track_query_nodup hnd) (track_query_length hlen)

theorem track_query_twice_count {q : String} {h : List String}
    (hq : (rustTrim q).isEmpty = false) :
    (track_query q (track_query q h)).count q = 1 ∧
    (track_query q (track_query q h)).head? = some q := by
  have hrec : ∀ r : List String, track_query q r = (q :: r.filter (fun s => s ≠ q)).take 100 := by
    intro r
    unfold track_query
    rw [if_neg (by simp [hq])]
  have htake : ∀ x : List String, (q :: x).take 100 = q :: x.take 99 := fun x => rfl
  rw [hrec, hrec, htake]
  constructor
  · rw [List.count_cons_self]
    have hzero : ∀ x : List String,
        List.count q (List.take 99 (List.filter (fun s => s ≠ q) x)) = 0 := by
      intro x
      rw [List.count_eq_zero]
      intro hmem
      have h1 := List.mem_of_mem_take hmem
      have h2 := (List.mem_filter.1 h1).2
      simp at h2
    rw [hzero]
  · rfl

theorem merge_step_mem {settings : SearchSettings} {b : Backends} {fts : List FtsHit}
    {sems : List SearchResult} {merged : List SearchHit}
    (hm : merge_step settings b fts sems = Except.ok merged) {h : SearchHit}
    (hh : h ∈ merged) :
    h.score = combined_score_of fts sems settings h.email_id ∧
    ¬ combined_score_of fts sems settings h.email_id < settings.min_score := by
  unfold merge_step at hm
  split at hm
  · obtain rfl : ([] : List SearchHit) = merged := Except.ok.inj hm
    simp at hh
  · cases hmeta : b.metadata_result with
    | error err => rw [hmeta] at hm; exact absurd hm (by simp [Except.map])
    | ok meta =>
      rw [hmeta] at hm
      obtain rfl : merge_results fts sems settings meta = merged := Except.ok.inj hm
      rcases mem_merge_results.1 hh with ⟨ent, hent, hee⟩
      obtain ⟨h1, h2, h3, _⟩ := merge_entry_some hee
      rw [h1]
      exact ⟨h2, h3⟩

theorem merge_step_eq_merge_results {settings : SearchSettings} {b : Backends}
    {fts : List FtsHit} {sems : List SearchResult} {merged : List SearchHit}
    {meta : List (EmailId × EmailMetadata)}
    (hm : merge_step settings b fts sems = Except.ok merged)
    (hmeta : b.metadata_result = Except.ok meta)
    (hne : ¬ (fts.isEmpty && sems.isEmpty) = true) :
    merged = merge_results fts sems settings meta := by
  unfold merge_step at hm
  rw [if_neg hne, hmeta] at hm
  exact (Except.ok.inj hm).symm

-- C2
/-- C2: every identity emitted by the merger carries the blended score
L * fts_weight + S * semantic_weight, where L is its lexical raw score (0 if
it has no lexical hit) and S its semantic relevance (0 if it has no semantic
hit), for every weight configuration in the settings snapshot. -/
theorem c2_blended_score (fts_hits : List FtsHit) (semantic_hits : List SearchResult)
    (settings : SearchSettings) (metadata_entries : List (EmailId × EmailMetadata)) :
    (merge_results fts_hits semantic_hits settings metadata_entries).Forall
      (fun h => h.score = fts_score_of fts_hits h.email_id * settings.fts_weight
        + semantic_score_of semantic_hits h.email_id * settings.semantic_weight) := by
  rw [List.forall_iff_forall_mem]
  intro h hm
  rcases mem_merge_results.1 hm with ⟨ent, hent, hee⟩
  obtain ⟨h1, h2, _, _⟩ := merge_entry_some hee
  rw [h2, h1, combined_score_of]

-- C10
/-- C10: the merged output contains at most one hit per email identity (its
identity list has no duplicates), even when the same identity occurs several
times inside the lexical hit list alone or the semantic hit list alone; the
hypothesis states the `HashMap` invariant that the metadata map holds one
entry per key. -/
theorem c10_no_intra_list_duplicates (fts_hits : List FtsHit)
    (semantic_hits : List SearchResult) (settings : SearchSettings)
    (metadata_entries : List (EmailId × EmailMetadata))
    (hnd : (metadata_entries.map Prod.fst).Nodup) :
    (hitIds (merge_results fts_hits semantic_hits settings metadata_entries)).Nodup :=
  nodup_hitIds_merge hnd

-- C4 amended
/-- C4 (amended): every identity appearing in the lexical or semantic hit
list that is found in the fetched metadata, has a strictly positive score
from at least one backend, and whose blended score clears the threshold,
appears exactly once in the merged output — never duplicated and never
dropped because it is present in both lists. -/
theorem c4_amended (fts_hits : List FtsHit) (semantic_hits : List SearchResult)
    (settings : SearchSettings) (metadata_entries : List (EmailId × EmailMetadata))
    (id : EmailId)
    (hnd : (metadata_entries.map Prod.fst).Nodup)
    (_hin : id ∈ fts_hits.map (fun h => h.email_id) ∨
      id ∈ semantic_hits.map (fun h => h.email_id))
    (hmeta : id ∈ metadata_entries.map Prod.fst)
    (hpos : 0 < fts_score_of fts_hits id ∨ 0 < semantic_score_of semantic_hits id)
    (hthr : settings.min_score ≤ combined_score_of fts_hits semantic_hits settings id) :
    (hitIds (merge_results fts_hits semantic_hits settings metadata_entries)).count id
      = 1 := by
  apply List.count_eq_one_of_mem (nodup_hitIds_merge hnd)
  rcases List.mem_map.1 hmeta with ⟨ent, hent, hent1⟩
  obtain ⟨h, hee, hid⟩ := @merge_entry_isSome fts_hits semantic_hits settings ent
    (by rw [hent1]; exact hpos) (by rw [hent1]; exact not_lt.2 hthr)
  exact List.mem_map.2 ⟨h, mem_merge_results.2 ⟨ent, hent, hee⟩, hid.trans hent1⟩


-- C3 amended
/-- C3 (amended): an identity whose blended score is strictly below
min_score appears neither in the returned hits nor in the merged list and
contributes nothing to total; an identity present in the metadata map with a
strictly positive lexical or semantic score whose blended score equals
min_score exactly is kept and counted in total. -/
theorem c3_amended (settings : SearchSettings) (ai : Bool) (b : Backends)
    (recent : List String) (q : SearchQuery) (r : SearchResults)
    (fts : List FtsHit) (sems : List SearchResult) (merged : List SearchHit)
    (hd : dispatch_hits settings ai b q.mode = Except.ok (fts, sems))
    (hm : merge_step settings b fts sems = Except.ok merged)
    (hr : (search settings ai b recent q).2 = Except.ok r) :
    (∀ id : EmailId, combined_score_of fts sems settings id < settings.min_score →
      id ∉ hitIds r.hits ∧ id ∉ hitIds merged ∧
      r.total = (merged.filter (fun h => h.email_id ≠ id)).length) ∧
    (∀ (id : EmailId) (meta : List (EmailId × EmailMetadata)),
      b.metadata_result = Except.ok meta → id ∈ meta.map Prod.fst →
      (0 < fts_score_of fts id ∨ 0 < semantic_score_of sems id) →
      combined_score_of fts sems settings id = settings.min_score →
      id ∈ hitIds merged ∧ 0 < r.total) := by
  rw [search_snd_eq hd hm] at hr
  obtain rfl := (Except.ok.inj hr).symm
  constructor
  · intro id hlt
    have hnotin : id ∉ hitIds merged := by
      intro hmem
      rcases List.mem_map.1 hmem with ⟨h, hh, hid⟩
      obtain ⟨_, h3⟩ := merge_step_mem hm hh
      rw [hid] at h3
      exact h3 hlt
    refine ⟨fun hmem => hnotin ?_, hnotin, ?_⟩
    · rcases List.mem_map.1 hmem with ⟨h, hh, hid⟩
      exact List.mem_map.2 ⟨h, List.mem_of_mem_drop (List.mem_of_mem_take hh), hid⟩
    · rw [List.filter_eq_self.2]
      intro h hh
      simp only [decide_eq_true_eq]
      intro hid
      exact hnotin (List.mem_map.2 ⟨h, hh, hid⟩)
  · intro id meta hmeta hid hpos heq
    have hne : ¬ (fts.isEmpty && sems.isEmpty) = true := by
      intro hb
      rcases Bool.and_eq_true_iff.1 hb with ⟨hf, hs⟩
      rw [List.isEmpty_iff] at hf hs
      subst hf; subst hs
      rcases hpos with hp | hp <;>
        simp [fts_score_of, semantic_score_of, insertAllLookup] at hp
    obtain rfl := merge_step_eq_merge_results hm hmeta hne
    rcases List.mem_map.1 hid with ⟨ent, hent, hent1⟩
    obtain ⟨h, hee, hhid⟩ := @merge_entry_isSome fts sems settings ent
      (by rw [hent1]; exact hpos) (by rw [hent1, heq]; exact lt_irrefl _)
    have hmem : id ∈ hitIds (merge_results fts sems settings meta) :=
      List.mem_map.2 ⟨h, mem_merge_results.2 ⟨ent, hent, hee⟩, hhid.trans hent1⟩
    refine ⟨hmem, ?_⟩
    rcases List.mem_map.1 hmem with ⟨h', hh', _⟩
    simp only
    exact List.length_pos.2 (List.ne_nil_of_mem hh')


-- C5 amended
/-- C5 (amended): the returned page is the sorted, thresholded merged list
with the first offset items skipped and at most limit items taken, total is
the merged list's length before pagination, and concatenating the pages
obtained with limit 50 at offsets 0, 50, 100, ... reproduces the merged list
with no gaps or repeats PROVIDED every page call sees the same metadata-map
iteration order (one fixed backend snapshot `b`); across real calls the
freshly seeded `HashMap` can reorder tied scores, see the counterexample. -/
theorem c5_pagination (settings : SearchSettings) (ai : Bool) (b : Backends)
    (recent : List String) (q : SearchQuery) (r : SearchResults)
    (fts : List FtsHit) (sems : List SearchResult) (merged : List SearchHit) (n : Nat)
    (hd : dispatch_hits settings ai b q.mode = Except.ok (fts, sems))
    (hm : merge_step settings b fts sems = Except.ok merged)
    (hr : (search settings ai b recent q).2 = Except.ok r)
    (hn : merged.length ≤ 50 * n) :
    r.hits = (merged.drop q.offset).take q.limit ∧
    r.total = merged.length ∧
    r.hits.length ≤ q.limit ∧
    (List.range n).flatMap (fun k =>
      page_hits settings ai b recent ((q.with_limit 50).with_offset (50 * k))) = merged := by
  rw [search_snd_eq hd hm] at hr
  obtain rfl := (Except.ok.inj hr).symm
  refine ⟨rfl, rfl, List.length_take_le _ _, ?_⟩
  have hpage : ∀ k : Nat,
      page_hits settings ai b recent ((q.with_limit 50).with_offset (50 * k)) =
      (merged.drop (50 * k)).take 50 := by
    intro k
    unfold page_hits
    have hd2 : dispatch_hits settings ai b
        ((q.with_limit 50).with_offset (50 * k)).mode = Except.ok (fts, sems) := hd
    rw [search_snd_eq hd2 hm]
    rfl
  simp only [hpage]
  rw [range_bind_take_drop, List.take_of_length_le hn]


-- evaluation lemmas for uniformly tied unit-rank hits
theorem make_hit_score_unit {fts : List FtsHit} {src : SearchSource}
    {e : EmailId × EmailMetadata} (hf : fts_score_of fts e.1 = 1) :
    (make_hit fts [] set_unit src e).score = 1 := by
  have hs : semantic_score_of [] e.1 = 0 := rfl
  norm_num [make_hit, combined_score_of, hf, hs, set_unit]

theorem merge_entry_unit {fts : List FtsHit} {e : EmailId × EmailMetadata}
    (hf : fts_score_of fts e.1 = 1) :
    merge_entry fts [] set_unit e =
      some (make_hit fts [] set_unit SearchSource.FullText e) := by
  have hs : semantic_score_of [] e.1 = 0 := rfl
  have hsrc : source_of fts [] e.1 = some SearchSource.FullText := by
    simp [source_of, hf, hs]
  rw [merge_entry, hsrc]
  dsimp only
  rw [if_neg]
  norm_num [combined_score_of, hf, hs, set_unit]

theorem filterMap_merge_entry_unit {fts : List FtsHit} :
    ∀ {meta : List (EmailId × EmailMetadata)},
    (∀ e ∈ meta, fts_score_of fts e.1 = 1) →
    meta.filterMap (merge_entry fts [] set_unit) =
      meta.map (fun e => make_hit fts [] set_unit SearchSource.FullText e)
  | [], _ => rfl
  | e :: rest, hall => by
    rw [List.filterMap_cons, merge_entry_unit (hall e (List.mem_cons_self e rest)),
      List.map_cons,
      filterMap_merge_entry_unit (fun x hx => hall x (List.mem_cons_of_mem e hx))]

theorem merge_results_unit {fts : List FtsHit} {meta : List (EmailId × EmailMetadata)}
    (hall : ∀ e ∈ meta, fts_score_of fts e.1 = 1) :
    merge_results fts [] set_unit meta =
      meta.map (fun e => make_hit fts [] set_unit SearchSource.FullText e) := by
  rw [merge_results, filterMap_merge_entry_unit hall, List.mergeSort_of_sorted]
  apply List.pairwise_of_forall_mem_list
  intro a ha b hb
  rcases List.mem_map.1 ha with ⟨ea, hea, haeq⟩
  rcases List.mem_map.1 hb with ⟨eb, heb, hbeq⟩
  have hsa : a.score = 1 := haeq ▸ make_hit_score_unit (hall ea hea)
  have hsb : b.score = 1 := hbeq ▸ make_hit_score_unit (hall eb heb)
  rw [decide_eq_true_eq, hsa, hsb]

theorem hitIds_map_make_hit {fts : List FtsHit} {src : SearchSource}
    {meta : List (EmailId × EmailMetadata)} :
    hitIds (meta.map (fun e => make_hit fts [] set_unit src e)) = meta.map Prod.fst := by
  simp [hitIds, List.map_map]
  intro a b _
  rfl

-- C5 counterexample
/-- C5 counterexample: two successive page calls on identical backend data
(same hit lists, same settings, the same 51 tied-score identities in the
metadata map) whose freshly built metadata `HashMap`s iterate in different
orders.  Under the stable sort the tie straddles the 50-item page boundary:
the concatenation of page 0 and page 1 lists identity e00 twice and omits
identity e50 entirely, although e50 is in the full sorted, thresholded list
of either call — refuting that concatenating successive pages at offsets
0, 50, 100, ... reproduces the full sorted list with no gaps or repeats. -/
theorem c5_counterexample :
    bA51.fts_result = bB51.fts_result ∧
    bA51.semantic_result = bB51.semantic_result ∧
    meta51A.Perm meta51B ∧
    (hitIds (page_hits set_unit false bA51 []
        (((SearchQuery.new ("p")).with_limit 50).with_offset (50 * 0)) ++
      page_hits set_unit false bB51 []
        (((SearchQuery.new ("p")).with_limit 50).with_offset (50 * 1)))).count ("e00")
      = 2 ∧
    "e50" ∈ hitIds (merge_results fts51 [] set_unit meta51A) ∧
    "e50" ∉ hitIds (page_hits set_unit false bA51 []
        (((SearchQuery.new ("p")).with_limit 50).with_offset (50 * 0)) ++
      page_hits set_unit false bB51 []
        (((SearchQuery.new ("p")).with_limit 50).with_offset (50 * 1))) := by
  have hallA : ∀ e ∈ meta51A, fts_score_of fts51 e.1 = 1 := by decide
  have hallB : ∀ e ∈ meta51B, fts_score_of fts51 e.1 = 1 := by decide
  have hmA := merge_results_unit hallA
  have hmB := merge_results_unit hallB
  have hdA : dispatch_hits set_unit false bA51
      ((((SearchQuery.new ("p")).with_limit 50).with_offset (50 * 0)).mode) =
      Except.ok (fts51, []) := rfl
  have hdB : dispatch_hits set_unit false bB51
      ((((SearchQuery.new ("p")).with_limit 50).with_offset (50 * 1)).mode) =
      Except.ok (fts51, []) := rfl
  have hmsA : merge_step set_unit bA51 fts51 [] = Except.ok
      (meta51A.map (fun e => make_hit fts51 [] set_unit SearchSource.FullText e)) := by
    rw [merge_step, if_neg (by decide)]
    show Except.ok (merge_results fts51 [] set_unit meta51A) = _
    rw [hmA]
  have hmsB : merge_step set_unit bB51 fts51 [] = Except.ok
      (meta51B.map (fun e => make_hit fts51 [] set_unit SearchSource.FullText e)) := by
    rw [merge_step, if_neg (by decide)]
    show Except.ok (merge_results fts51 [] set_unit meta51B) = _
    rw [hmB]
  have hpA : page_hits set_unit false bA51 []
      (((SearchQuery.new ("p")).with_limit 50).with_offset (50 * 0)) =
      ((meta51A.map (fun e => make_hit fts51 [] set_unit SearchSource.FullText e)).drop
        (50 * 0)).take 50 := by
    unfold page_hits
    rw [search_snd_eq hdA hmsA]
    rfl
  have hpB : page_hits set_unit false bB51 []
      (((SearchQuery.new ("p")).with_limit 50).with_offset (50 * 1)) =
      ((meta51B.map (fun e => make_hit fts51 [] set_unit SearchSource.FullText e)).drop
        (50 * 1)).take 50 := by
    unfold page_hits
    rw [search_snd_eq hdB hmsB]
    rfl
  refine ⟨rfl, rfl, (List.reverse_perm meta51A).symm, ?_, ?_, ?_⟩
  · rw [hpA, hpB]
    decide
  · rw [hmA, hitIds_map_make_hit]
    decide
  · rw [hpA, hpB]
    decide

-- C6 amended
/-- C6 (amended): the raw query text is recorded into the query history
before any backend is consulted (the history update is independent of the
backend outcomes, so it happens even when the search later fails), provided
its trimmed form is non-empty; a text whose trimmed form is empty is never
recorded. -/
theorem c6_amended (settings : SearchSettings) (ai : Bool) (b : Backends)
    (recent : List String) (q : SearchQuery) :
    (search settings ai b recent q).1 = track_query q.text recent ∧
    ((rustTrim q.text).isEmpty = true → (search settings ai b recent q).1 = recent) ∧
    ((rustTrim q.text).isEmpty = false →
      (search settings ai b recent q).1 =
        (q.text :: recent.filter (fun s => s ≠ q.text)).take 100 ∧
      (search settings ai b recent q).1.head? = some q.text) := by
  refine ⟨rfl, fun ht => ?_, fun hf => ?_⟩
  · show track_query q.text recent = recent
    unfold track_query
    rw [if_pos ht]
  · have hshow : track_query q.text recent =
        (q.text :: recent.filter (fun s => s ≠ q.text)).take 100 := by
      unfold track_query
      rw [if_neg (by simp [hf])]
    exact ⟨hshow, by show (track_query q.text recent).head? = _; rw [hshow]; rfl⟩

-- C7 amended
/-- C7 (amended): after every sequence of searches the query history has no
duplicate strings and holds at most 100 entries, and this invariant is
preserved from any valid state; submitting the same query text with
non-empty trimmed form twice leaves exactly one entry for it, positioned at
the front (most-recent-first). -/
theorem c7_amended (qs : List String) (q : String) (h : List String)
    (hq : (rustTrim q).isEmpty = false) :
    (run_queries qs []).Nodup ∧ (run_queries qs []).length ≤ 100 ∧
    (∀ h2 : List String, h2.Nodup → h2.length ≤ 100 →
      (track_query q h2).Nodup ∧ (track_query q h2).length ≤ 100) ∧
    (track_query q (track_query q h)).count q = 1 ∧
    (track_query q (track_query q h)).head? = some q := by
  obtain ⟨h1, h2⟩ := run_queries_invariant qs [] (by simp) (by simp)
  obtain ⟨h3, h4⟩ := track_query_twice_count hq
  exact ⟨h1, h2, fun h2' hnd hlen => ⟨track_query_nodup hnd, track_query_length hlen⟩,
    h3, h4⟩

-- C8 amended
/-- C8 (amended): the merger's output scores are non-increasing from first
to last for every input and every metadata-map iteration order; the sort is
stable, so equal-score ties follow the metadata map's iteration order, which
the underlying `HashMap` does not fix across runs. -/
theorem c8_amended (fts_hits : List FtsHit) (semantic_hits : List SearchResult)
    (settings : SearchSettings) (metadata_entries : List (EmailId × EmailMetadata)) :
    (merge_results fts_hits semantic_hits settings metadata_entries).Pairwise
      (fun a b => b.score ≤ a.score) := by
  have h := @List.sorted_mergeSort SearchHit
    (fun a b : SearchHit => decide (b.score ≤ a.score))
    (fun a b c hab hbc => by
      simp only [decide_eq_true_eq] at *
      exact le_trans hbc hab)
    (fun a b => by
      simp only [Bool.or_eq_true, decide_eq_true_eq]
      exact le_total b.score a.score)
    (metadata_entries.filterMap (merge_entry fts_hits semantic_hits settings))
  exact h.imp (fun hab => by simpa using hab)


-- C9
/-- C9: a Semantic-mode query with semantic search disabled in settings or
no semantic backend configured dispatches only to the lexical backend,
returns exactly what a FullText-mode search would return, and reports
used_semantic = false; the fallback is not an error. -/
theorem c9_semantic_fallback (settings : SearchSettings) (ai : Bool) (b : Backends)
    (recent : List String) (q : SearchQuery)
    (hmode : q.mode = SearchMode.Semantic)
    (hoff : settings.semantic_enabled = false ∨ ai = false) :
    dispatch_hits settings ai b q.mode = b.fts_result.map (fun fts => (fts, [])) ∧
    (search settings ai b recent q).2 =
      (search settings ai b recent (q.with_mode SearchMode.FullText)).2 ∧
    (∀ r : SearchResults,
      (search settings ai b recent q).2 = Except.ok r → r.used_semantic = false) := by
  have hand : (settings.semantic_enabled && ai) = false := by
    rcases hoff with hx | hx <;> simp [hx]
  have hdis : dispatch_hits settings ai b q.mode = b.fts_result.map (fun fts => (fts, [])) := by
    rw [hmode]
    simp [dispatch_hits, hand]
  refine ⟨hdis, ?_, ?_⟩
  · have hdis2 : dispatch_hits settings ai b (q.with_mode SearchMode.FullText).mode =
        b.fts_result.map (fun fts => (fts, [])) := by
      simp [dispatch_hits, SearchQuery.with_mode]
    simp only [search, hdis, hdis2]
    rfl
  · intro r hr
    cases hf : b.fts_result with
    | error err =>
      rw [show (search settings ai b recent q).2 = Except.error err by
        simp [search, hdis, hf, Except.map, Except.bind, Bind.bind]] at hr
      exact absurd hr (by simp)
    | ok fts =>
      cases hms : merge_step settings b fts [] with
      | error err =>
        rw [show (search settings ai b recent q).2 = Except.error err by
          simp [search, hdis, hf, hms, Except.map, Except.bind, Bind.bind]] at hr
        exact absurd hr (by simp)
      | ok merged =>
        have hd2 : dispatch_hits settings ai b q.mode = Except.ok (fts, []) := by
          rw [hdis, hf]; rfl
        rw [search_snd_eq hd2 hms] at hr
        obtain rfl := (Except.ok.inj hr).symm
        rfl

-- C1 amended
/-- C1 (amended): in Hybrid mode a semantic backend failure is swallowed
(the search behaves exactly as if the semantic backend had returned no
hits), and a lexical backend failure is propagated verbatim in every mode
where the lexical backend is called; but in Semantic mode with semantic
enabled and a backend configured, a semantic backend failure is propagated
to the caller. -/
theorem c1_amended (settings : SearchSettings) (ai : Bool) (b : Backends)
    (recent : List String) (q : SearchQuery) (e : String) :
    (q.mode = SearchMode.Hybrid →
      search settings ai { b with semantic_result := Except.error e } recent q =
      search settings ai { b with semantic_result := Except.ok [] } recent q) ∧
    (b.fts_result = Except.error e →
      (q.mode = SearchMode.FullText ∨ q.mode = SearchMode.Hybrid ∨
        (q.mode = SearchMode.Semantic ∧
          (settings.semantic_enabled = false ∨ ai = false))) →
      (search settings ai b recent q).2 = Except.error e) ∧
    (q.mode = SearchMode.Semantic → settings.semantic_enabled = true → ai = true →
      b.semantic_result = Except.error e →
      (search settings ai b recent q).2 = Except.error e) := by
  refine ⟨fun hmode => ?_, fun hf hcase => ?_, fun h1 h2 h3 h4 => ?_⟩
  · by_cases hsc : (settings.semantic_enabled && ai) = true
    · have hai : ai = true := (Bool.and_eq_true_iff.1 hsc).2
      simp [search, dispatch_hits, semantic_search, merge_step, hmode, hsc, hai,
        Except.toOption]
    · rw [Bool.not_eq_true] at hsc
      simp [search, dispatch_hits, semantic_search, merge_step, hmode, hsc]
  · rcases hcase with hx | hx | ⟨hx, hoff⟩
    · simp [search, dispatch_hits, hx, hf, Except.map, Except.bind, Bind.bind]
    · by_cases hsc : (settings.semantic_enabled && ai) = true <;>
        simp [search, dispatch_hits, hx, hf, hsc, Except.map, Except.bind, Bind.bind]
    · have hand : (settings.semantic_enabled && ai) = false := by
        rcases hoff with hy | hy <;> simp [hy]
      simp [search, dispatch_hits, hx, hf, hand, Except.map, Except.bind, Bind.bind]
  · simp [search, dispatch_hits, semantic_search, h1, h2, h3, h4, Except.map,
      Except.bind, Bind.bind]


-- C1 counterexample
/-- C1 counterexample: with semantic enabled and a backend configured, a
Semantic-mode search returns the semantic backend's error even though the
lexical backend succeeded — refuting that search never fails solely due to a
semantic backend failure. -/
theorem c1_counterexample :
    b_semfail.fts_result = Except.ok [] ∧
    (search set_unit true b_semfail []
      ((SearchQuery.new ("q")).with_mode SearchMode.Semantic)).2 =
      Except.error ("boom") :=
  ⟨rfl, rfl⟩

-- C1 witness
/-- C1 witness: the amended theorem applied at a concrete Semantic-mode
query with a failing semantic backend. -/
theorem c1_witness :
    (search set_unit true b_semfail2 []
      ((SearchQuery.new ("w")).with_mode SearchMode.Semantic)).2 =
      Except.error ("down") :=
  (c1_amended set_unit true b_semfail2 []
    ((SearchQuery.new ("w")).with_mode SearchMode.Semantic) ("down")).2.2 rfl rfl rfl rfl

-- C3 counterexample
/-- C3 counterexample: identity e9 has a semantic hit with relevance 0 and a
metadata record, its blended score equals min_score exactly (0 = 0), yet the
merger drops it (the provenance dispatch sees no positive score) and the
search reports total = 0 — refuting that an identity whose blended score
equals min_score is always kept. -/
theorem c3_counterexample :
    "e9" ∈ sem_z.map (fun h => h.email_id) ∧
    "e9" ∈ meta9.map Prod.fst ∧
    combined_score_of [] sem_z set_unit ("e9") = set_unit.min_score ∧
    merge_results [] sem_z set_unit meta9 = [] ∧
    (search set_unit true b_c3 [] (SearchQuery.new ("w"))).2 =
      Except.ok { hits := [], total := 0, query := "w", took_ms := 0,
                  used_semantic := true } := by
  have hmr : merge_results [] sem_z set_unit meta9 = [] := by
    norm_num [merge_results, merge_entry, source_of, fts_score_of, semantic_score_of,
      insertAllLookup, List.filterMap_cons, List.mergeSort_nil, sem_z, meta9, m9, set_unit]
  refine ⟨by decide, by decide, ?_, hmr, ?_⟩
  · norm_num [combined_score_of, fts_score_of, semantic_score_of, insertAllLookup,
      sem_z, set_unit]
  · have hd : dispatch_hits set_unit true b_c3 (SearchQuery.new ("w")).mode =
        Except.ok ([], sem_z) := by
      simp [dispatch_hits, semantic_search, b_c3, set_unit, SearchQuery.new,
        SearchQuery.defaultQuery, Except.toOption, Except.map]
    have hms : merge_step set_unit b_c3 [] sem_z = Except.ok [] := by
      rw [merge_step, if_neg (by simp [sem_z])]
      simp [b_c3, Except.map, hmr]
    rw [search_snd_eq hd hms]
    rfl

-- C3 witness
/-- C3 witness: the amended theorem applied to an empty merge at threshold 1,
for the below-threshold identity zzz. -/
theorem c3_witness :
    "zzz" ∉ hitIds r_empty.hits ∧ "zzz" ∉ hitIds ([] : List SearchHit) ∧
    r_empty.total = (List.filter (fun h => h.email_id ≠ "zzz")
      ([] : List SearchHit)).length :=
  (c3_amended set_min1 false b_empty [] (SearchQuery.new ("x")) r_empty [] [] []
    rfl rfl rfl).1 ("zzz")
    (by simp [combined_score_of, fts_score_of, semantic_score_of, insertAllLookup, set_min1])

-- C4 counterexample
/-- C4 counterexample: identity e1 appears in the lexical hit list with rank
exactly 0, has a metadata record, and its blended score 0 clears the
threshold min_score = 0, yet it appears zero times (not once) in the merged
output because the provenance dispatch drops identities with no strictly
positive score. -/
theorem c4_counterexample :
    "e1" ∈ fts_z.map (fun h => h.email_id) ∧
    "e1" ∈ ([("e1", m1)].map Prod.fst) ∧
    set_unit.min_score ≤ combined_score_of fts_z [] set_unit ("e1") ∧
    (hitIds (merge_results fts_z [] set_unit [("e1", m1)])).count ("e1") = 0 := by
  have hmr : merge_results fts_z [] set_unit [("e1", m1)] = [] := by
    norm_num [merge_results, merge_entry, source_of, fts_score_of, semantic_score_of,
      insertAllLookup, List.filterMap_cons, List.mergeSort_nil, fts_z, m1, set_unit]
  refine ⟨by decide, by decide, ?_, by rw [hmr]; rfl⟩
  norm_num [combined_score_of, fts_score_of, semantic_score_of, insertAllLookup,
    fts_z, set_unit]

-- C4 witness
/-- C4 witness: the amended theorem applied to a positive-rank hit for e1,
which appears exactly once in the merged output. -/
theorem c4_witness :
    (hitIds (merge_results fts_1 [] set_unit [("e1", m1)])).count ("e1") = 1 :=
  c4_amended fts_1 [] set_unit [("e1", m1)] ("e1") (by decide) (Or.inl (by decide))
    (by decide) (Or.inl (by decide))
    (by simp [combined_score_of, fts_score_of, semantic_score_of, insertAllLookup,
      fts_1, set_unit])

-- C5 witness
/-- C5 witness: the pagination theorem applied to a search over empty
backends. -/
theorem c5_witness :
    r_y.hits = (([] : List SearchHit).drop (SearchQuery.new ("y")).offset).take
      (SearchQuery.new ("y")).limit ∧
    r_y.total = ([] : List SearchHit).length ∧
    r_y.hits.length ≤ (SearchQuery.new ("y")).limit ∧
    (List.range 1).flatMap (fun k => page_hits set_unit false b_empty []
      (((SearchQuery.new ("y")).with_limit 50).with_offset (50 * k))) =
      ([] : List SearchHit) :=
  c5_pagination set_unit false b_empty [] (SearchQuery.new ("y")) r_y [] [] [] 1
    rfl rfl rfl (by decide)

-- C6 counterexample
/-- C6 counterexample: for the query text " a " (trimmed form "a",
non-empty) the history records the raw string " a " and not the trimmed
text "a" — refuting that the trimmed query text is recorded. -/
theorem c6_counterexample :
    rustTrim (" a ") = "a" ∧
    (search set_unit false b_empty [] (SearchQuery.new (" a "))).1 = [" a "] ∧
    "a" ∉ (search set_unit false b_empty [] (SearchQuery.new (" a "))).1 := by
  decide

-- C6 witness
/-- C6 witness: the amended theorem applied at a concrete already-trimmed
query text. -/
theorem c6_witness :
    (search set_unit false b_empty [] (SearchQuery.new ("hello"))).1 =
      ("hello" :: List.filter (fun s => s ≠ "hello") []).take 100 ∧
    (search set_unit false b_empty [] (SearchQuery.new ("hello"))).1.head? =
      some ("hello") :=
  (c6_amended set_unit false b_empty [] (SearchQuery.new ("hello"))).2.2 (by decide)

-- C7 counterexample
/-- C7 counterexample: the query text " " is non-empty, yet submitting it
twice leaves no entry at all in the history (whitespace-only texts are never
recorded) — refuting that any non-empty text submitted twice leaves exactly
one entry at the front. -/
theorem c7_counterexample :
    (" " : String) ≠ "" ∧
    (search set_unit false b_empty [] (SearchQuery.new (" "))).1 = [] ∧
    (track_query (" ") (track_query (" ") [])).count (" ") = 0 := by
  decide

-- C7 witness
/-- C7 witness: the amended theorem applied to the history obtained by
recording b and then a twice. -/
theorem c7_witness :
    (run_queries ["b"] []).Nodup ∧ (run_queries ["b"] []).length ≤ 100 ∧
    (∀ h2 : List String, h2.Nodup → h2.length ≤ 100 →
      (track_query ("a") h2).Nodup ∧ (track_query ("a") h2).length ≤ 100) ∧
    (track_query ("a") (track_query ("a") [])).count ("a") = 1 ∧
    (track_query ("a") (track_query ("a") [])).head? = some ("a") :=
  c7_amended ["b"] ("a") [] (by decide)

-- C8 counterexample
/-- C8 counterexample: two runs of the merger on identical hit lists and
settings, whose metadata maps hold the same entries but are iterated in
different orders, produce different output sequences when scores tie —
refuting that ties are broken by a fixed order independent of the run. -/
theorem c8_counterexample :
    metaA.Perm metaB ∧
    merge_results fts_2 [] set_unit metaA ≠ merge_results fts_2 [] set_unit metaB := by
  constructor
  · rw [metaA, metaB]
    exact List.Perm.swap ("e2", m2) ("e1", m1) []
  · have hA : merge_results fts_2 [] set_unit metaA =
        [make_hit fts_2 [] set_unit SearchSource.FullText ("e1", m1),
         make_hit fts_2 [] set_unit SearchSource.FullText ("e2", m2)] := by
      rw [merge_results]
      have hf : List.filterMap (merge_entry fts_2 [] set_unit) metaA =
          [make_hit fts_2 [] set_unit SearchSource.FullText ("e1", m1),
           make_hit fts_2 [] set_unit SearchSource.FullText ("e2", m2)] := by
        norm_num [merge_entry, source_of, fts_score_of, semantic_score_of, insertAllLookup,
          combined_score_of, List.filterMap_cons, fts_2, set_unit, metaA]
      rw [hf, List.mergeSort_of_sorted]
      refine List.Pairwise.cons ?_ (List.pairwise_singleton _ _)
      intro x hx
      simp only [List.mem_singleton] at hx
      subst hx
      norm_num [make_hit, combined_score_of, fts_score_of, semantic_score_of,
        insertAllLookup, fts_2, set_unit]
    have hB : merge_results fts_2 [] set_unit metaB =
        [make_hit fts_2 [] set_unit SearchSource.FullText ("e2", m2),
         make_hit fts_2 [] set_unit SearchSource.FullText ("e1", m1)] := by
      rw [merge_results]
      have hf : List.filterMap (merge_entry fts_2 [] set_unit) metaB =
          [make_hit fts_2 [] set_unit SearchSource.FullText ("e2", m2),
           make_hit fts_2 [] set_unit SearchSource.FullText ("e1", m1)] := by
        norm_num [merge_entry, source_of, fts_score_of, semantic_score_of, insertAllLookup,
          combined_score_of, List.filterMap_cons, fts_2, set_unit, metaB]
      rw [hf, List.mergeSort_of_sorted]
      refine List.Pairwise.cons ?_ (List.pairwise_singleton _ _)
      intro x hx
      simp only [List.mem_singleton] at hx
      subst hx
      norm_num [make_hit, combined_score_of, fts_score_of, semantic_score_of,
        insertAllLookup, fts_2, set_unit]
    rw [hA, hB]
    intro hcontra
    have := List.head_eq_of_cons_eq hcontra
    simp [make_hit, m1, m2] at this

-- C9 witness
/-- C9 witness: the fallback theorem applied at a concrete Semantic-mode
query with semantic search disabled. -/
theorem c9_witness :
    dispatch_hits set_off true b_empty q_sem_off.mode =
      b_empty.fts_result.map (fun fts => (fts, [])) ∧
    (search set_off true b_empty [] q_sem_off).2 =
      (search set_off true b_empty [] (q_sem_off.with_mode SearchMode.FullText)).2 ∧
    (∀ r : SearchResults,
      (search set_off true b_empty [] q_sem_off).2 = Except.ok r →
      r.used_semantic = false) :=
  c9_semantic_fallback set_off true b_empty [] q_sem_off rfl (Or.inl rfl)

-- C10 witness
/-- C10 witness: the dedup theorem applied to hit lists that each name e1
twice. -/
theorem c10_witness :
    (hitIds (merge_results fts_dup sem_dup set_unit [("e1", m1)])).Nodup :=
  c10_no_intra_list_duplicates fts_dup sem_dup set_unit [("e1", m1)] (by decide)


end HeapSearch
